import Mathlib

/-!
# Verification of the dot game core

A shallow embedding of the falling-dots browser game: the game loop
(`GameController` / `GameRenderer`), the score accumulator
(`ScoreController`), and the resize throttle (`AppController._throttle`).

JavaScript numbers are modelled as rationals (every value the game
computes is a small rational, far from any floating-point edge case).
`Math.floor`, `Math.round` and `parseInt`-of-a-number are modelled
explicitly.  DOM element identity is modelled by an `id : ℕ` field on the
dot model; the SVG child-node list is a `List DotModel`, newest first
(`drawDot` inserts at the front, as the source inserts before the first
child to preserve z order).
-/

/-- JavaScript `Math.floor` on a (rational-modelled) number. -/
def jsFloor (q : ℚ) : ℤ := ⌊q⌋

/-- JavaScript `Math.round`: rounds half toward positive infinity,
`Math.round x = ⌊x + 1/2⌋`. -/
def jsRound (q : ℚ) : ℤ := ⌊q + 1/2⌋

/-- JavaScript `parseInt` applied to the decimal string of a number in
ordinary (non-exponential) notation: the integer part of the decimal
string, i.e. truncation toward zero. -/
def jsTrunc (q : ℚ) : ℤ := if q < 0 then ⌈q⌉ else ⌊q⌋

/-! ## Settings (`AppController._settings`) -/

def minDotRadius : ℚ := 5
def maxDotRadius : ℚ := 50
def minSpeed : ℚ := 10
def maxSpeed : ℚ := 100
def initSpeed : ℚ := 10
def renderRateSetting : ℚ := 100

/-! ## Entity models (`DotModel.js`, `CanvasModel.js`) -/

/-- `DotModel`: one falling dot.  `id` models DOM element identity (the
source identifies a dot by its `<circle>` element reference); the
remaining fields are the constructor fields of `DotModel.js`. -/
structure DotModel where
  id : ℕ
  score : ℚ
  x : ℚ
  y : ℚ
  radius : ℚ
  diameter : ℚ
  fillColor : String
  strokeWidth : ℚ
  strokeColor : String
deriving DecidableEq, Repr

/-- `CanvasModel`: the viewport, as read from `offsetWidth` / `offsetHeight`. -/
structure CanvasModel where
  width : ℚ
  height : ℚ
deriving DecidableEq, Repr

/-- `DotModel` constructor: `diameter = radius * 2` is derived. -/
def DotModel.mk' (id : ℕ) (score x y radius : ℚ) (fillColor : String)
    (strokeWidth : ℚ) (strokeColor : String) : DotModel :=
  ⟨id, score, x, y, radius, radius * 2, fillColor, strokeWidth, strokeColor⟩

/-! ## `GameController` helper functions -/

/-- `_getRandomInt(min, max)`:
`Math.floor(Math.random() * (max - min + 1)) + min`, with the
`Math.random()` draw `q ∈ [0, 1)` made an explicit argument. -/
def getRandomInt (q mi ma : ℚ) : ℚ :=
  ((jsFloor (q * (ma - mi + 1)) : ℤ) : ℚ) + mi

/-- `_getRandomDotRadius()`: a random radius between the settings bounds. -/
def getRandomDotRadius (q : ℚ) : ℚ :=
  getRandomInt q minDotRadius maxDotRadius

/-- `_getRandomDotX(dotRadius, strokeWidth)`: a random x between
`radius + strokeWidth` and `canvasWidth - (radius + strokeWidth)`. -/
def getRandomDotX (q dotRadius strokeWidth canvasWidth : ℚ) : ℚ :=
  let sum := dotRadius + strokeWidth
  let minX := sum
  let maxX := canvasWidth - sum
  getRandomInt q minX maxX

/-- `_getDotModelScore(dotRadius)`: `Math.round(50 / dotRadius)`. -/
def getDotModelScore (dotRadius : ℚ) : ℚ :=
  ((jsRound (50 / dotRadius) : ℤ) : ℚ)

/-- `_getPxMovePerRender()`: `dotSpeed / (1000 / renderRate)`. -/
def getPxMovePerRender (dotSpeed renderRate : ℚ) : ℚ :=
  dotSpeed / (1000 / renderRate)

/-! ## `GameRenderer._moveDots` and offscreen culling -/

/-- `_isDotOffscreen(dotElem, dotY)`: reads the `r` attribute with
`parseInt` and tests `dotY - r > canvasHeight` (strict).  The x test in
the source is commented out ("Disabled to improve performance"). -/
def isDotOffscreen (canvasHeight radiusAttr : ℚ) (dotY : ℤ) : Bool :=
  let radiusVal := jsTrunc radiusAttr
  let dotTopY := dotY - radiusVal
  decide (canvasHeight < (dotTopY : ℚ))

/-- The offscreen test as `_moveDots` performs it on a dot: `cy` is read
with `parseInt` and passed to `_isDotOffscreen`. -/
def offscreenCheck (canvasHeight : ℚ) (d : DotModel) : Bool :=
  isDotOffscreen canvasHeight d.radius (jsTrunc d.y)

/-- One dot's move in `_moveDots`: `cy` is read with `parseInt`, then
`newDotY = parseInt(dotY + moveAmount)` is stored. -/
def moveDot (moveAmount : ℚ) (d : DotModel) : DotModel :=
  { d with y := ((jsTrunc ((jsTrunc d.y : ℚ) + moveAmount) : ℤ) : ℚ) }

/-- The `_moveDots` loop body over the child list in scan order (the
source iterates `i = len - 1` down to `0`, i.e. oldest dot first).
`shouldCheckOffscreen` starts `true`; while it holds, an offscreen dot is
removed (`continue`); the first dot that is not offscreen clears the flag,
and from then on every dot is only moved. -/
def moveDotsScan (moveAmount canvasHeight : ℚ) : List DotModel → List DotModel
  | [] => []
  | d :: rest =>
    if offscreenCheck canvasHeight d then
      moveDotsScan moveAmount canvasHeight rest
    else
      moveDot moveAmount d :: rest.map (moveDot moveAmount)

/-- `_moveDots(moveAmount)`: the child list is newest-first, the loop
scans it from the back, so we scan the reversed list and reverse back. -/
def moveDots (moveAmount canvasHeight : ℚ) (dots : List DotModel) : List DotModel :=
  (moveDotsScan moveAmount canvasHeight dots.reverse).reverse

/-! ## Game state and controller operations

The mutable state shared between `GameController`, `GameRenderer` and
`ScoreController`: the SVG child list (newest first), the canvas model,
the accumulated score, the spawn accumulator `_elapsedMilliseconds`, and
the fire times of the pending one-shot respawn timers created by
`_handleDotClick`. -/

structure GameState where
  dots : List DotModel
  viewport : CanvasModel
  totalScore : ℚ
  elapsedMilliseconds : ℚ
  pendingRespawns : List ℚ
deriving DecidableEq, Repr

/-- `GameController._addDot()` followed by `GameRenderer.drawDot`:
builds the dot model from two random draws `qr, qx ∈ [0, 1)` (radius and
x) and inserts it as the first child.  `newId` is the fresh DOM element
identity of the created `<circle>`. -/
def addDot (qr qx : ℚ) (newId : ℕ) (s : GameState) : GameState :=
  let strokeWidth : ℚ := 1
  let dotRadius := getRandomDotRadius qr
  let initialDotX := getRandomDotX qx dotRadius strokeWidth s.viewport.width
  let initialDotY := 0 - dotRadius - strokeWidth - 1
  let dotModelScore := getDotModelScore dotRadius
  let dotModel := DotModel.mk' newId dotModelScore initialDotX initialDotY
    dotRadius "white" strokeWidth "black"
  { s with dots := dotModel :: s.dots }

/-- `GameRenderer._handleDotClick(event)` plus the controller and score
chain it triggers.  `target` is the `mousedown` target: `some i` when the
user hit the live dot element with identity `i`, `none` when the hit was
the canvas itself (in particular, where an already-removed dot used to
be), in which case the `data-dot-score` attribute test fails and nothing
happens.  Otherwise: the score is read with `parseInt`, the element is
removed, the controller adds the score to the total
(`ScoreController._updateScore`), and one respawn timer is set for 1000 ms
from the click time `t` (`window.setTimeout(..., 1000)`). -/
def handleDotClick (t : ℚ) (target : Option ℕ) (s : GameState) : GameState :=
  match target with
  | none => s
  | some i =>
    match s.dots.find? (fun d => d.id == i) with
    | none => s
    | some d =>
      { s with
        dots := s.dots.eraseP (fun d => d.id == i)
        totalScore := s.totalScore + ((jsTrunc d.score : ℤ) : ℚ)
        pendingRespawns := s.pendingRespawns ++ [t + 1000] }

/-- `GameController._handleResize()`: rebuilds the canvas model from the
current `offsetWidth` / `offsetHeight` (passed in as `newW`, `newH`) and
hands it to `GameRenderer.updateCanvasModel`, which updates the `<svg>`
size attributes and replaces its stored canvas model.  No dot is
touched. -/
def handleResize (newW newH : ℚ) (s : GameState) : GameState :=
  { s with viewport := ⟨newW, newH⟩ }

/-- The move pass of one `_render` tick: `_gameRenderer.moveDots`
with the current px-per-render amount, culling against the current
canvas height. -/
def renderMovePass (pxMovePerRender : ℚ) (s : GameState) : GameState :=
  { s with dots := moveDots pxMovePerRender s.viewport.height s.dots }

/-! ## The spawn accumulator of `GameController._render`

`_render` does `_elapsedMilliseconds += _renderRate`, moves the dots,
then `if (_elapsedMilliseconds >= 1000) { _addDot(); _elapsedMilliseconds = 0; }`.
The accumulator and spawn count are modelled on their own (the state pair
is `(elapsed, spawnCount)`); `renderRate` is the integer tick period. -/

def renderTickAccum (renderRate : ℕ) (st : ℕ × ℕ) : ℕ × ℕ :=
  let elapsed := st.1 + renderRate
  if 1000 ≤ elapsed then (0, st.2 + 1) else (elapsed, st.2)

/-- Number of dots spawned by the tick loop after `n` ticks, starting
from a zero accumulator (as `_start` leaves it). -/
def spawnsAfterTicks (renderRate n : ℕ) : ℕ :=
  ((renderTickAccum renderRate)^[n] (0, 0)).2

/-! ## `AppController._throttle`

The throttle keeps a single `_resizeTimeout` handle.  A resize event at
a time when no timeout is pending schedules one `duration` ms out; an
event while one is pending is dropped; when the timeout fires it clears
the handle and calls the wrapped handler, which re-reads the surface size
at fire time.  We simulate a time-ordered list of raw resize event times
(ℕ milliseconds); `sizes t` is the surface size an observer would read at
time `t`.  The result is the list of downstream `handleResize` calls as
`(fire time, size read)` pairs; a timeout that is still pending after the
last event fires at the end of the run. -/

def ThrottleState : Type := Option ℕ × List (ℕ × (ℕ × ℕ))

/-- Delivery of one raw resize event at time `t`.  A pending timeout
whose fire time has passed fires first (clearing the handle and recording
the downstream call); then the event either schedules a new timeout or is
dropped. -/
def throttleEvent (duration : ℕ) (sizes : ℕ → ℕ × ℕ) (st : ThrottleState)
    (t : ℕ) : ThrottleState :=
  match st with
  | (some tf, calls) =>
    if tf ≤ t then (some (t + duration), calls ++ [(tf, sizes tf)])
    else (some tf, calls)
  | (none, calls) => (some (t + duration), calls)

/-- Run the throttle over a time-ordered list of raw resize events and
let any still-pending timeout fire afterwards. -/
def runThrottle (duration : ℕ) (sizes : ℕ → ℕ × ℕ) (events : List ℕ) :
    List (ℕ × (ℕ × ℕ)) :=
  match events.foldl (throttleEvent duration sizes) ((none, []) : ThrottleState) with
  | (some tf, calls) => calls ++ [(tf, sizes tf)]
  | (none, calls) => calls

/-- The number of ticks between two consecutive spawns of the tick loop:
the least `k` with `k * renderRate ≥ 1000`, i.e. `⌈1000 / renderRate⌉`. -/
def spawnPeriodTicks (renderRate : ℕ) : ℕ := 999 / renderRate + 1

/-! ## Concrete dots used to separate claims from the code

`cullDemoOld` is an older dot (spawned first, hence the last SVG child):
radius 50, centre y 140, top edge 90.  `cullDemoNew` is a newer dot:
radius 5, centre y 140, top edge 135.  On a canvas of height 100 the new
dot is offscreen by `_isDotOffscreen` while the old one is not.  Such a
state is reachable: at speed 10 and render rate 100 a dot falls 1 px per
tick and consecutive spawns are 10 ticks apart, so a radius-50 dot
spawned at y = -52 one second before a radius-5 dot spawned at y = -7
stays 35 px above it forever. -/

def cullDemoOld : DotModel := DotModel.mk' 1 1 50 140 50 "white" 1 "black"
def cullDemoNew : DotModel := DotModel.mk' 2 10 60 140 5 "white" 1 "black"

/-- A dot at integer height, used to exhibit the `parseInt` truncation of
fractional per-tick movement. -/
def fracDemoDot : DotModel := DotModel.mk' 3 10 60 0 5 "white" 1 "black"

/-- Two live dots and a small game state for exercising the click
resolution path. -/
def clickDemoA : DotModel := DotModel.mk' 10 7 30 20 7 "white" 1 "black"
def clickDemoB : DotModel := DotModel.mk' 11 2 40 60 21 "white" 1 "black"
def clickDemoState : GameState :=
  ⟨[clickDemoA, clickDemoB], ⟨200, 300⟩, 5, 0, []⟩

/-- An empty game state on a 200 × 300 canvas, for exercising spawns. -/
def spawnDemoState : GameState := ⟨[], ⟨200, 300⟩, 0, 0, []⟩

/-! # Theorems -/

@[simp] theorem jsTrunc_intCast (n : ℤ) : jsTrunc (n : ℚ) = n := by
  unfold jsTrunc
  by_cases h : (n : ℚ) < 0 <;> simp [h]

@[simp] theorem jsFloor_intCast (n : ℤ) : jsFloor (n : ℚ) = n := by
  simp [jsFloor]

/-! ## The move pass: structure lemmas -/

/-- The `_moveDots` scan culls exactly the leading run (in scan order,
oldest dot first) of offscreen dots and moves everything after it. -/
theorem moveDotsScan_eq_dropWhile (m h : ℚ) (L : List DotModel) :
    moveDotsScan m h L = (L.dropWhile (offscreenCheck h)).map (moveDot m) := by
  induction L with
  | nil => rfl
  | cons d rest ih =>
    by_cases hc : offscreenCheck h d
    · simp [moveDotsScan, hc, List.dropWhile_cons, ih]
    · simp [moveDotsScan, hc, List.dropWhile_cons]

theorem mem_dropWhile_of_mem {α : Type} (p : α → Bool) (L : List α) (d : α)
    (hd : d ∈ L) (hp : p d = false) : d ∈ L.dropWhile p := by
  induction L with
  | nil => simp at hd
  | cons a rest ih =>
    rw [List.dropWhile_cons]
    rcases List.mem_cons.mp hd with rfl | hmem
    · simp [hp]
    · by_cases ha : p a
      · simpa [ha] using ih hmem
      · simp [ha, List.mem_cons, hmem]

/-- Claim C1 (amended): the move pass culls exactly the maximal run of
offscreen dots at the start of the scan order (last SVG child first,
i.e. oldest dot first): a dot is removed iff its top edge
`y - radius` strictly exceeds the canvas height AND every dot scanned
before it was removed too; every dot whose top edge is at most the
canvas height — in particular one exactly at the boundary — survives the
pass (its moved copy is in the result). -/
theorem moveDots_cull_run (m h : ℚ) (L : List DotModel) :
    moveDots m h L =
      ((L.reverse.dropWhile (offscreenCheck h)).map (moveDot m)).reverse ∧
    (∀ d ∈ L, ((jsTrunc d.y - jsTrunc d.radius : ℤ) : ℚ) ≤ h →
      moveDot m d ∈ moveDots m h L) := by
  constructor
  · unfold moveDots
    rw [moveDotsScan_eq_dropWhile]
  · intro d hd hle
    unfold moveDots
    rw [moveDotsScan_eq_dropWhile, List.mem_reverse]
    apply List.mem_map_of_mem
    apply mem_dropWhile_of_mem _ _ _ (List.mem_reverse.mpr hd)
    simp only [offscreenCheck, isDotOffscreen, decide_eq_false_iff_not, not_lt]
    exact_mod_cast hle

theorem moveDots_cull_run_witness :
    moveDot 1 cullDemoOld ∈ moveDots 1 100 [cullDemoNew, cullDemoOld] :=
  (moveDots_cull_run 1 100 [cullDemoNew, cullDemoOld]).2 cullDemoOld
    (by simp) (by norm_num [cullDemoOld, DotModel.mk', jsTrunc])

/-- Claim C1 counterexample: `cullDemoNew` is offscreen by the
`_isDotOffscreen` test (top edge 135 > canvas height 100) at tick
evaluation time, yet the move pass does not remove it: the scan reaches
the older, onscreen `cullDemoOld` (top edge 90) first and stops checking,
so both dots survive and are merely moved.  The claim's "culled if its
top edge exceeds viewport.height" is false at this input. -/
theorem moveDots_cull_counterexample :
    offscreenCheck 100 cullDemoNew = true ∧
    moveDots 1 100 [cullDemoNew, cullDemoOld] =
      [{ cullDemoNew with y := 141 }, { cullDemoOld with y := 141 }] := by
  constructor
  · norm_num [offscreenCheck, isDotOffscreen, jsTrunc, cullDemoNew, DotModel.mk']
  · norm_num [moveDots, moveDotsScan, moveDot, offscreenCheck, isDotOffscreen,
      jsTrunc, cullDemoNew, cullDemoOld, DotModel.mk']

/-- `parseInt` at an integer-valued `cy` plus integer move amount. -/
theorem moveDot_intCast (mz j : ℤ) (d : DotModel) (hy : d.y = (j : ℚ)) :
    moveDot (mz : ℚ) d = { d with y := ((j + mz : ℤ) : ℚ) } := by
  unfold moveDot
  rw [hy, jsTrunc_intCast, ← Int.cast_add, jsTrunc_intCast]

/-- Claim C2 (amended): the per-tick update stores
`parseInt(y + s / (1000 / p))`, truncating toward zero; whenever the
per-tick amount `s / (1000 / p)` is an integer `mz` and the dot's `y` is
an integer (as every live dot's is), `N` ticks increase `y` by exactly
`N * mz`.  (For fractional per-tick amounts the fractional part is
discarded anew each tick — see the counterexample.) -/
theorem fallDistance_integer_speed (s p : ℚ) (mz : ℤ)
    (hm : getPxMovePerRender s p = (mz : ℚ)) (k : ℤ) (d : DotModel)
    (hy : d.y = (k : ℚ)) (N : ℕ) :
    ((moveDot (getPxMovePerRender s p))^[N] d).y = d.y + (N : ℚ) * (mz : ℚ) := by
  rw [hm]
  induction N with
  | zero => simp
  | succ n ih =>
    have hval : ((moveDot ((mz : ℤ) : ℚ))^[n] d).y = ((k + n * mz : ℤ) : ℚ) := by
      rw [ih, hy]
      push_cast
      ring
    rw [Function.iterate_succ_apply', moveDot_intCast mz (k + n * mz) _ hval]
    show ((k + n * mz + mz : ℤ) : ℚ) = d.y + ((n + 1 : ℕ) : ℚ) * (mz : ℚ)
    rw [hy]
    push_cast
    ring

theorem fallDistance_integer_speed_witness :
    ((moveDot (getPxMovePerRender 10 100))^[3] fracDemoDot).y =
      fracDemoDot.y + ((3 : ℕ) : ℚ) * (((1 : ℤ)) : ℚ) :=
  fallDistance_integer_speed 10 100 1 (by norm_num [getPxMovePerRender]) 0
    fracDemoDot (by norm_num [fracDemoDot, DotModel.mk']) 3

/-- Claim C2 counterexample: at speed 15 and tick period 100 ms the
per-tick amount is exactly 1.5 px (all values exactly representable, so
no floating-point rounding is involved), yet two ticks move
`fracDemoDot` from y = 0 to y = 2, not to 2 × 1.5 = 3: each tick's
`parseInt` discards the fractional half instead of accumulating it. -/
theorem fallDistance_fractional_counterexample :
    getPxMovePerRender 15 100 = 3 / 2 ∧
    moveDots (3 / 2) 1000 (moveDots (3 / 2) 1000 [fracDemoDot]) =
      [{ fracDemoDot with y := 2 }] ∧
    fracDemoDot.y + (2 : ℚ) * (3 / 2) = 3 := by
  refine ⟨by norm_num [getPxMovePerRender], ?_, by norm_num [fracDemoDot, DotModel.mk']⟩
  norm_num [moveDots, moveDotsScan, moveDot, offscreenCheck, isDotOffscreen,
    jsTrunc, fracDemoDot, DotModel.mk']

/-- Claim C9: after a move pass, every surviving dot's `cy` is an
integer: the update stores `parseInt(dotY + moveAmount)`, so whatever
fractional movement was requested, the stored coordinate is integral. -/
theorem moveDots_integer_y (m h : ℚ) (L : List DotModel) (d : DotModel)
    (hd : d ∈ moveDots m h L) : ∃ k : ℤ, d.y = (k : ℚ) := by
  unfold moveDots at hd
  rw [moveDotsScan_eq_dropWhile, List.mem_reverse] at hd
  rcases List.mem_map.mp hd with ⟨d0, _, rfl⟩
  exact ⟨_, rfl⟩

theorem moveDots_integer_y_witness :
    ∃ k : ℤ, ({ fracDemoDot with y := 1 } : DotModel).y = (k : ℚ) :=
  moveDots_integer_y (3 / 2) 1000 [fracDemoDot] _
    (by norm_num [moveDots, moveDotsScan, moveDot, offscreenCheck,
      isDotOffscreen, jsTrunc, fracDemoDot, DotModel.mk'])

/-! ## Spawn cadence -/

/-- While the accumulator stays below 1000 ms no spawn happens: `j` ticks
from a zero accumulator leave it at `j * renderRate`. -/
theorem renderTickAccum_run_lt (r c : ℕ) :
    ∀ j, j * r ≤ 999 → (renderTickAccum r)^[j] (0, c) = (j * r, c) := by
  intro j
  induction j with
  | zero => simp
  | succ n ih =>
    intro hle
    have hn : n * r ≤ 999 := le_trans (Nat.mul_le_mul_right r (Nat.le_succ n)) hle
    rw [Function.iterate_succ_apply', ih hn]
    have hlt : ¬ 1000 ≤ n * r + r := by
      have : (n + 1) * r = n * r + r := by ring
      omega
    simp [renderTickAccum, hlt]
    ring

/-- `spawnPeriodTicks` is tight: one more tick reaches 1000 ms, one less
does not. -/
theorem spawnPeriod_mul_bounds (r : ℕ) (hr : 0 < r) :
    1000 ≤ spawnPeriodTicks r * r ∧ (spawnPeriodTicks r - 1) * r ≤ 999 := by
  have ha := Nat.div_add_mod 999 r
  have hb : 999 % r < r := Nat.mod_lt _ hr
  constructor
  · have key : spawnPeriodTicks r * r = r * (999 / r) + r := by
      unfold spawnPeriodTicks
      ring
    omega
  · have key : (spawnPeriodTicks r - 1) * r = r * (999 / r) := by
      unfold spawnPeriodTicks
      simp [Nat.mul_comm]
    omega

/-- Exactly at `spawnPeriodTicks` ticks the accumulator reaches 1000 ms,
one dot is spawned, and the accumulator resets to 0. -/
theorem renderTickAccum_run_period (r : ℕ) (hr : 0 < r) (c : ℕ) :
    (renderTickAccum r)^[spawnPeriodTicks r] (0, c) = (0, c + 1) := by
  have hbounds := spawnPeriod_mul_bounds r hr
  have hk : spawnPeriodTicks r = 999 / r + 1 := rfl
  rw [hk, Function.iterate_succ_apply',
    renderTickAccum_run_lt r c (999 / r) (Nat.div_mul_le_self 999 r)]
  have hge : 1000 ≤ 999 / r * r + r := by
    have key : spawnPeriodTicks r * r = 999 / r * r + r := by
      unfold spawnPeriodTicks
      ring
    omega
  simp [renderTickAccum, hge]

/-- Whole spawn periods compose. -/
theorem renderTickAccum_run_mul (r : ℕ) (hr : 0 < r) (b : ℕ) :
    (renderTickAccum r)^[spawnPeriodTicks r * b] (0, 0) = (0, b) := by
  induction b with
  | zero => simp
  | succ n ih =>
    have hsplit : spawnPeriodTicks r * (n + 1) =
        spawnPeriodTicks r + spawnPeriodTicks r * n := by ring
    rw [hsplit, Function.iterate_add_apply, ih,
      renderTickAccum_run_period r hr n]

/-- Claim C3 (amended): the tick loop spawns exactly one dot per
`spawnPeriodTicks renderRate = ⌈1000 / renderRate⌉` ticks, i.e. one per
`spawnPeriodTicks renderRate * renderRate` milliseconds of simulated
time; after `n` ticks exactly `n / spawnPeriodTicks renderRate` dots
have spawned.  The cadence is one per 1000 ms exactly when `renderRate`
divides 1000 (so for 50, 100, 200 — but not in general). -/
theorem spawnCadence_period (r : ℕ) (hr : 0 < r) (n : ℕ) :
    spawnsAfterTicks r n = n / spawnPeriodTicks r ∧
    (r ∣ 1000 → spawnPeriodTicks r * r = 1000) := by
  have hk0 : 0 < spawnPeriodTicks r := Nat.succ_pos _
  constructor
  · have hsplit : n = n % spawnPeriodTicks r +
        spawnPeriodTicks r * (n / spawnPeriodTicks r) := by
      rw [Nat.mod_add_div]
    have hrun : (renderTickAccum r)^[n] (0, 0) =
        ((n % spawnPeriodTicks r) * r, n / spawnPeriodTicks r) := by
      conv_lhs => rw [hsplit]
      rw [Function.iterate_add_apply, renderTickAccum_run_mul r hr]
      apply renderTickAccum_run_lt
      have h1 : n % spawnPeriodTicks r < spawnPeriodTicks r := Nat.mod_lt _ hk0
      have h2 : n % spawnPeriodTicks r ≤ spawnPeriodTicks r - 1 := by omega
      calc (n % spawnPeriodTicks r) * r ≤ (spawnPeriodTicks r - 1) * r :=
            Nat.mul_le_mul_right r h2
        _ ≤ 999 := (spawnPeriod_mul_bounds r hr).2
    unfold spawnsAfterTicks
    rw [hrun]
  · intro hdvd
    have hq : 1000 / r * r = 1000 := Nat.div_mul_cancel hdvd
    have hbounds := spawnPeriod_mul_bounds r hr
    have hle1 : spawnPeriodTicks r ≤ 1000 / r := by
      have hlt : (spawnPeriodTicks r - 1) * r < 1000 / r * r := by omega
      have := lt_of_mul_lt_mul_right hlt (Nat.zero_le r)
      omega
    have hle2 : 1000 / r ≤ spawnPeriodTicks r := by
      have hmul : 1000 / r * r ≤ spawnPeriodTicks r * r := by omega
      exact Nat.le_of_mul_le_mul_right hmul hr
    have : spawnPeriodTicks r = 1000 / r := le_antisymm hle1 hle2
    rw [this, hq]

theorem spawnCadence_period_witness :
    spawnsAfterTicks 100 25 = 25 / spawnPeriodTicks 100 ∧
    (100 ∣ 1000 → spawnPeriodTicks 100 * 100 = 1000) :=
  spawnCadence_period 100 (by decide) 25

/-- Claim C3 counterexample: with `renderRate = 300` the accumulator
reaches 1000 only at 1200 ms; after 10 ticks — 3000 ms of simulated
time — only 2 dots have spawned where a strict 1-per-1000 ms cadence
would give 3.  The "independent of renderRate" part of the claim fails
whenever `renderRate` does not divide 1000. -/
theorem spawnCadence_counterexample :
    spawnsAfterTicks 300 10 = 2 ∧ 10 * 300 = 3000 ∧ 3000 / 1000 = 3 := by
  refine ⟨by decide, by decide, by decide⟩

/-! ## Click resolution -/

/-- With DOM element identities unique in the child list, `find?` by id
finds exactly the clicked dot. -/
theorem find_id_of_nodup (L : List DotModel) (i : ℕ) (d : DotModel)
    (hnodup : (L.map DotModel.id).Nodup) (hd : d ∈ L) (hid : d.id = i) :
    L.find? (fun d0 => d0.id == i) = some d := by
  induction L with
  | nil => simp at hd
  | cons a rest ih =>
    rw [List.map_cons, List.nodup_cons] at hnodup
    rcases List.mem_cons.mp hd with rfl | hmem
    · exact List.find?_cons_of_pos _ (by simp [hid])
    · have hna : a.id ≠ i := by
        intro hai
        exact hnodup.1 (hai ▸ hid ▸ List.mem_map.mpr ⟨d, hmem, rfl⟩)
      rw [List.find?_cons_of_neg _ (by simp [hna])]
      exact ih hnodup.2 hmem

/-- After erasing the clicked id from a child list with unique ids, no
dot with that id remains. -/
theorem eraseP_id_gone (L : List DotModel) (i : ℕ)
    (hnodup : (L.map DotModel.id).Nodup) :
    ∀ d0 ∈ L.eraseP (fun x => x.id == i), d0.id ≠ i := by
  induction L with
  | nil => simp
  | cons a rest ih =>
    rw [List.map_cons, List.nodup_cons] at hnodup
    by_cases ha : a.id = i
    · rw [List.eraseP_cons_of_pos (by simp [ha])]
      intro d0 hd0 hd0i
      exact hnodup.1 (ha ▸ hd0i ▸ List.mem_map.mpr ⟨d0, hd0, rfl⟩)
    · rw [List.eraseP_cons_of_neg (by simp [ha])]
      intro d0 hd0
      rcases List.mem_cons.mp hd0 with rfl | hmem
      · exact ha
      · exact ih hnodup.2 d0 hmem

/-- Claim C4: clicking a live dot removes exactly that dot from the
child list (and no dot with its identity survives), adds exactly its
score to the total, and schedules exactly one respawn timer for 1000 ms
after the click; a click that hits no live dot — the canvas where a
removed dot used to be, or the canvas background — changes nothing. -/
theorem handleDotClick_spec (t : ℚ) (s : GameState) (i : ℕ) (d : DotModel)
    (hnodup : (s.dots.map DotModel.id).Nodup)
    (hd : d ∈ s.dots) (hid : d.id = i) (k : ℤ) (hscore : d.score = (k : ℚ)) :
    (handleDotClick t (some i) s).dots = s.dots.eraseP (fun d0 => d0.id == i) ∧
    (∀ d0 ∈ (handleDotClick t (some i) s).dots, d0.id ≠ i) ∧
    (handleDotClick t (some i) s).dots.length + 1 = s.dots.length ∧
    (handleDotClick t (some i) s).totalScore = s.totalScore + d.score ∧
    (handleDotClick t (some i) s).pendingRespawns =
      s.pendingRespawns ++ [t + 1000] ∧
    (∀ j : ℕ, (∀ d0 ∈ s.dots, d0.id ≠ j) → handleDotClick t (some j) s = s) ∧
    handleDotClick t none s = s := by
  have hfind := find_id_of_nodup s.dots i d hnodup hd hid
  have hstep : handleDotClick t (some i) s =
      { s with
        dots := s.dots.eraseP (fun d0 => d0.id == i)
        totalScore := s.totalScore + ((jsTrunc d.score : ℤ) : ℚ)
        pendingRespawns := s.pendingRespawns ++ [t + 1000] } := by
    simp only [handleDotClick]
    rw [hfind]
  refine ⟨by rw [hstep], ?_, ?_, ?_, by rw [hstep], ?_, rfl⟩
  · rw [hstep]
    exact eraseP_id_gone s.dots i hnodup
  · rw [hstep]
    exact List.length_eraseP_add_one hd (by simp [hid])
  · rw [hstep, hscore]
    simp
  · intro j hj
    have hnone : s.dots.find? (fun d0 => d0.id == j) = none :=
      List.find?_eq_none.mpr (fun x hx => by simp [hj x hx])
    simp only [handleDotClick]
    rw [hnone]

theorem handleDotClick_spec_witness :
    (handleDotClick 3 (some 10) clickDemoState).totalScore =
      clickDemoState.totalScore + clickDemoA.score ∧
    (handleDotClick 3 (some 10) clickDemoState).pendingRespawns =
      clickDemoState.pendingRespawns ++ [3 + 1000] ∧
    (handleDotClick 3 (some 10) clickDemoState).dots.length + 1 =
      clickDemoState.dots.length ∧
    handleDotClick 3 none clickDemoState = clickDemoState := by
  have h := handleDotClick_spec 3 clickDemoState 10 clickDemoA
    (by simp [clickDemoState, clickDemoA, clickDemoB, DotModel.mk'])
    (by simp [clickDemoState]) rfl 7
    (by norm_num [clickDemoA, DotModel.mk'])
  exact ⟨h.2.2.2.1, h.2.2.2.2.1, h.2.2.1, h.2.2.2.2.2.2⟩

/-! ## Spawn position and radius -/

/-- `_getRandomInt` stays within its inclusive bounds when the random
draw is in `[0, 1)` and the bounds span an integer number of values
(`max - min ∈ ℤ`, as always holds in the game: integer viewport width,
integer radius, stroke width 1). -/
theorem getRandomInt_bounds (q mi ma : ℚ) (hq0 : 0 ≤ q) (hq1 : q < 1)
    (k : ℤ) (hk : ma - mi = (k : ℚ)) (hle : mi ≤ ma) :
    mi ≤ getRandomInt q mi ma ∧ getRandomInt q mi ma ≤ ma := by
  have hk0 : (0 : ℤ) ≤ k := by
    have h0 : (0 : ℚ) ≤ (k : ℚ) := by rw [← hk]; linarith
    exact_mod_cast h0
  have hn : ma - mi + 1 = ((k + 1 : ℤ) : ℚ) := by rw [hk]; push_cast; ring
  have hnpos : (0 : ℚ) < ma - mi + 1 := by
    rw [hn]
    have : (0 : ℤ) < k + 1 := by omega
    exact_mod_cast this
  constructor
  · have h0 : (0 : ℚ) ≤ q * (ma - mi + 1) := mul_nonneg hq0 (le_of_lt hnpos)
    have hfl : (0 : ℤ) ≤ ⌊q * (ma - mi + 1)⌋ := Int.floor_nonneg.mpr h0
    have hcast : (0 : ℚ) ≤ ((⌊q * (ma - mi + 1)⌋ : ℤ) : ℚ) := by exact_mod_cast hfl
    unfold getRandomInt jsFloor
    linarith
  · have hlt : q * (ma - mi + 1) < ma - mi + 1 := mul_lt_of_lt_one_left hnpos hq1
    have hfl : ⌊q * (ma - mi + 1)⌋ < k + 1 := Int.floor_lt.mpr (by rw [← hn]; exact hlt)
    have hfle : ⌊q * (ma - mi + 1)⌋ ≤ k := by omega
    have hcast : ((⌊q * (ma - mi + 1)⌋ : ℤ) : ℚ) ≤ (k : ℚ) := by exact_mod_cast hfle
    unfold getRandomInt jsFloor
    linarith

/-- The spawned radius is the integer `⌊q * 46⌋ + 5`. -/
theorem getRandomDotRadius_int (q : ℚ) :
    getRandomDotRadius q = ((⌊q * 46⌋ + 5 : ℤ) : ℚ) := by
  unfold getRandomDotRadius getRandomInt jsFloor minDotRadius maxDotRadius
  norm_num

/-- `_getRandomInt` returns an integer whenever its lower bound is one. -/
theorem getRandomInt_int (q mi ma : ℚ) (k : ℤ) (hmi : mi = (k : ℚ)) :
    ∃ j : ℤ, getRandomInt q mi ma = (j : ℚ) := by
  refine ⟨⌊q * (ma - mi + 1)⌋ + k, ?_⟩
  unfold getRandomInt jsFloor
  rw [hmi]
  push_cast
  ring

/-- Claim C5: every spawned dot starts fully above the viewport at
`y = -(radius + strokeWidth + 1)`, and — when the viewport is at least
`2 * (radius + strokeWidth)` wide — its x is inside
`[radius + strokeWidth, width - (radius + strokeWidth)]` inclusive.
(The viewport width is an integer, as `offsetWidth` is an integer in the
DOM.) -/
theorem addDot_spawn_position (qr qx : ℚ) (i : ℕ) (s : GameState)
    (hq0 : 0 ≤ qx) (hq1 : qx < 1)
    (kw : ℤ) (hw : s.viewport.width = (kw : ℚ))
    (hwide : 2 * (getRandomDotRadius qr + 1) ≤ s.viewport.width) :
    ∃ d, (addDot qr qx i s).dots = d :: s.dots ∧
      d.strokeWidth = 1 ∧
      d.radius = getRandomDotRadius qr ∧
      d.y = -(d.radius + d.strokeWidth + 1) ∧
      d.radius + d.strokeWidth ≤ d.x ∧
      d.x ≤ s.viewport.width - (d.radius + d.strokeWidth) := by
  obtain ⟨kr, hkr⟩ : ∃ k : ℤ, getRandomDotRadius qr = (k : ℚ) :=
    ⟨_, getRandomDotRadius_int qr⟩
  have hbounds := getRandomInt_bounds qx (getRandomDotRadius qr + 1)
    (s.viewport.width - (getRandomDotRadius qr + 1)) hq0 hq1 (kw - 2 * kr - 2)
    (by rw [hw, hkr]; push_cast; ring) (by linarith)
  refine ⟨_, rfl, rfl, rfl, ?_, ?_, ?_⟩
  · show (0 - getRandomDotRadius qr - 1 - 1 : ℚ) =
      -(getRandomDotRadius qr + 1 + 1)
    ring
  · show getRandomDotRadius qr + 1 ≤
      getRandomDotX qx (getRandomDotRadius qr) 1 s.viewport.width
    exact hbounds.1
  · show getRandomDotX qx (getRandomDotRadius qr) 1 s.viewport.width ≤
      s.viewport.width - (getRandomDotRadius qr + 1)
    exact hbounds.2

theorem addDot_spawn_position_witness :
    ∃ d, (addDot 0 (1/2) 0 spawnDemoState).dots = d :: spawnDemoState.dots ∧
      d.strokeWidth = 1 ∧
      d.radius = getRandomDotRadius 0 ∧
      d.y = -(d.radius + d.strokeWidth + 1) ∧
      d.radius + d.strokeWidth ≤ d.x ∧
      d.x ≤ spawnDemoState.viewport.width - (d.radius + d.strokeWidth) :=
  addDot_spawn_position 0 (1/2) 0 spawnDemoState (by norm_num) (by norm_num)
    200 (by norm_num [spawnDemoState])
    (by norm_num [getRandomDotRadius, getRandomInt, jsFloor, minDotRadius,
      maxDotRadius, spawnDemoState])

/-- Claim C6: the score assigned at spawn is `Math.round(50 / radius)`;
over `[minDotRadius, maxDotRadius]` it is monotonically non-increasing
in the radius, with value 10 at radius 5 and 1 at radius 50. -/
theorem dotScore_round_monotone (r1 r2 : ℚ)
    (h1 : minDotRadius ≤ r1) (h2 : r1 ≤ r2) (_h3 : r2 ≤ maxDotRadius) :
    getDotModelScore r2 ≤ getDotModelScore r1 ∧
    getDotModelScore minDotRadius = 10 ∧
    getDotModelScore maxDotRadius = 1 ∧
    (∀ qr qx i s, ∃ d, (addDot qr qx i s).dots = d :: s.dots ∧
      d.score = getDotModelScore d.radius) := by
  refine ⟨?_, ?_, ?_, ?_⟩
  · have hr1 : (0 : ℚ) < r1 := by
      have : (5 : ℚ) ≤ r1 := h1
      linarith
    have hdiv : (50 : ℚ) / r2 ≤ 50 / r1 := by
      rw [div_eq_mul_one_div, div_eq_mul_one_div (50 : ℚ) r1]
      exact mul_le_mul_of_nonneg_left (one_div_le_one_div_of_le hr1 h2)
        (by norm_num)
    have hfl : ⌊(50 : ℚ) / r2 + 1/2⌋ ≤ ⌊(50 : ℚ) / r1 + 1/2⌋ :=
      Int.floor_le_floor (by linarith)
    unfold getDotModelScore jsRound
    exact_mod_cast hfl
  · norm_num [getDotModelScore, jsRound, minDotRadius]
  · norm_num [getDotModelScore, jsRound, maxDotRadius]
  · intro qr qx i s
    exact ⟨_, rfl, rfl⟩

theorem dotScore_round_monotone_witness :
    getDotModelScore 20 ≤ getDotModelScore 10 ∧
    getDotModelScore minDotRadius = 10 ∧
    getDotModelScore maxDotRadius = 1 ∧
    (∃ d, (addDot 0 0 0 spawnDemoState).dots = d :: spawnDemoState.dots ∧
      d.score = getDotModelScore d.radius) := by
  have h := dotScore_round_monotone 10 20
    (by norm_num [minDotRadius]) (by norm_num) (by norm_num [maxDotRadius])
  exact ⟨h.1, h.2.1, h.2.2.1, h.2.2.2 0 0 0 spawnDemoState⟩

/-- Claim C7: `handleResize` replaces the viewport — so a subsequent
move pass culls against the new height and a subsequent spawn draws its
x from the new width — but leaves every live dot (and the score)
untouched. -/
theorem handleResize_frame (w h : ℚ) (s : GameState) (m qr qx : ℚ) (i : ℕ) :
    (handleResize w h s).dots = s.dots ∧
    (handleResize w h s).totalScore = s.totalScore ∧
    (handleResize w h s).viewport = ⟨w, h⟩ ∧
    (renderMovePass m (handleResize w h s)).dots = moveDots m h s.dots ∧
    (∃ d, (addDot qr qx i (handleResize w h s)).dots = d :: s.dots ∧
      d.x = getRandomDotX qx d.radius d.strokeWidth w ∧
      d.y = 0 - d.radius - d.strokeWidth - 1) :=
  ⟨rfl, rfl, rfl, rfl, ⟨_, rfl, rfl, rfl⟩⟩

/-! ## Resize throttle -/

/-- Raw resize events that arrive strictly before a pending timeout's
fire time are dropped without any effect. -/
theorem throttle_drop_aux (dur : ℕ) (sizes : ℕ → ℕ × ℕ) (rest : List ℕ)
    (tf : ℕ) (calls : List (ℕ × (ℕ × ℕ))) :
    (∀ t ∈ rest, t < tf) →
    rest.foldl (throttleEvent dur sizes) (some tf, calls) = (some tf, calls) := by
  induction rest with
  | nil => intro _; rfl
  | cons a l ih =>
    intro hrest
    rw [List.foldl_cons]
    have ha : ¬ tf ≤ a := Nat.not_le.mpr (hrest a (by simp))
    have hstep : throttleEvent dur sizes (some tf, calls) a = (some tf, calls) := by
      simp [throttleEvent, ha]
    rw [hstep]
    exact ih (fun t ht => hrest t (by simp [ht]))

/-- Claim C8: any burst of `N ≥ 1` raw resize signals inside the 200 ms
window opened by the first signal at `t0` produces exactly one downstream
`handleResize` call, fired at the window's expiry `t0 + 200`, and the
handler reads the render-surface size at fire time (`sizes (t0 + 200)`),
not at the time of the first raw event. -/
theorem throttle_single_call (sizes : ℕ → ℕ × ℕ) (t0 : ℕ) (rest : List ℕ)
    (hrest : ∀ t ∈ rest, t0 ≤ t ∧ t < t0 + 200) :
    runThrottle 200 sizes (t0 :: rest) = [(t0 + 200, sizes (t0 + 200))] := by
  unfold runThrottle
  rw [List.foldl_cons]
  have h1 : throttleEvent 200 sizes ((none, []) : ThrottleState) t0 =
      (some (t0 + 200), []) := rfl
  rw [h1, throttle_drop_aux 200 sizes rest (t0 + 200) []
    (fun t ht => (hrest t ht).2)]
  rfl

theorem throttle_single_call_witness :
    runThrottle 200 (fun t => (t, t + 1)) [0, 50, 199] = [(200, (200, 201))] := by
  have h := throttle_single_call (fun t => (t, t + 1)) 0 [50, 199] (by decide)
  simpa using h

/-- Claim C10: the spawned radius is drawn as
`Math.floor(Math.random() * (max - min + 1)) + min`: always an integer,
inside `[minDotRadius, maxDotRadius]` for a draw in `[0, 1)`, uniform in
the sense that radius `5 + j` is produced exactly for draws in
`[j/46, (j+1)/46)`; and the spawned dot's x and y are integers too. -/
theorem dotRadius_integer_uniform (q : ℚ) (hq0 : 0 ≤ q) (hq1 : q < 1) :
    (∃ k : ℤ, getRandomDotRadius q = (k : ℚ)) ∧
    minDotRadius ≤ getRandomDotRadius q ∧
    getRandomDotRadius q ≤ maxDotRadius ∧
    (∀ j : ℤ, 0 ≤ j → j ≤ 45 →
      (getRandomDotRadius q = ((5 + j : ℤ) : ℚ) ↔
        ((j : ℤ) : ℚ) / 46 ≤ q ∧ q < (((j : ℤ) : ℚ) + 1) / 46)) ∧
    (∀ qx i s, ∃ d kx ky, (addDot q qx i s).dots = d :: s.dots ∧
      d.radius = getRandomDotRadius q ∧
      d.x = ((kx : ℤ) : ℚ) ∧ d.y = ((ky : ℤ) : ℚ)) := by
  have hbounds := getRandomInt_bounds q minDotRadius maxDotRadius hq0 hq1 45
    (by norm_num [minDotRadius, maxDotRadius]) (by norm_num [minDotRadius, maxDotRadius])
  obtain ⟨kr, hkr⟩ : ∃ k : ℤ, getRandomDotRadius q = (k : ℚ) :=
    ⟨_, getRandomDotRadius_int q⟩
  refine ⟨⟨kr, hkr⟩, hbounds.1, hbounds.2, ?_, ?_⟩
  · intro j hj0 hj45
    rw [getRandomDotRadius_int q]
    constructor
    · intro heq
      have heqz : ⌊q * 46⌋ + 5 = 5 + j := by exact_mod_cast heq
      have hfl : ⌊q * 46⌋ = j := by omega
      have hiff := (Int.floor_eq_iff).mp hfl
      constructor
      · rw [div_le_iff₀ (by norm_num : (0:ℚ) < 46)]
        exact hiff.1
      · rw [lt_div_iff₀ (by norm_num : (0:ℚ) < 46)]
        exact hiff.2
    · intro hq
      have hfl : ⌊q * 46⌋ = j := by
        apply Int.floor_eq_iff.mpr
        constructor
        · rw [← div_le_iff₀ (by norm_num : (0:ℚ) < 46)]
          exact hq.1
        · rw [← lt_div_iff₀ (by norm_num : (0:ℚ) < 46)]
          exact hq.2
      rw [hfl]
      norm_num
      ring
  · intro qx i s
    obtain ⟨kx, hkx⟩ := getRandomInt_int qx (getRandomDotRadius q + 1)
      (s.viewport.width - (getRandomDotRadius q + 1)) (kr + 1)
      (by rw [hkr]; push_cast; ring)
    refine ⟨_, kx, -(kr + 2), rfl, rfl, ?_, ?_⟩
    · exact hkx
    · show (0 - getRandomDotRadius q - 1 - 1 : ℚ) = ((-(kr + 2) : ℤ) : ℚ)
      rw [hkr]
      push_cast
      ring

theorem dotRadius_integer_uniform_witness :
    minDotRadius ≤ getRandomDotRadius (1/2) ∧
    getRandomDotRadius (1/2) ≤ maxDotRadius ∧
    (getRandomDotRadius (1/2) = ((5 + 23 : ℤ) : ℚ) ↔
      (((23 : ℤ) : ℤ) : ℚ) / 46 ≤ (1/2 : ℚ) ∧
        (1/2 : ℚ) < ((((23 : ℤ) : ℤ) : ℚ) + 1) / 46) ∧
    (∃ d kx ky, (addDot (1/2) 0 0 spawnDemoState).dots = d :: spawnDemoState.dots ∧
      d.radius = getRandomDotRadius (1/2) ∧
      d.x = ((kx : ℤ) : ℚ) ∧ d.y = ((ky : ℤ) : ℚ)) := by
  have h := dotRadius_integer_uniform (1/2) (by norm_num) (by norm_num)
  exact ⟨h.2.1, h.2.2.1, h.2.2.2.1 23 (by norm_num) (by norm_num),
    h.2.2.2.2 0 0 spawnDemoState⟩
